import Mathlib

/-!
Verification of the falcon paper-trading ledger against its specification.

The definitions below are shallow embeddings of the Python sources:
* `scripts/backfill_pnl.py` — FIFO realized-P&L backfill,
* `account_balance_updater.py` — balance reconciliation and discrepancy check,
* `strategy_analytics.py` — optimization triggers and drawdown computation,
* `stop_loss_monitor.py` — stop-loss monitoring loop,
* `paper_trade_one_candle.py` — order placement of the one-candle paper trader,
* `db_manager.py` — persisted schema created by `init_schema`.

Python floats are modelled as rationals; SQL rows as structures; the
defaultdict of per-symbol lot queues as a total function with default `[]`.
-/

namespace Falcon

/-- An open lot in the FIFO queue of `backfill_pnl.py`: the dict
`{'price': ..., 'quantity': ..., 'timestamp': ...}`.  The stored timestamp is
never read by the computation and is omitted. -/
structure Lot where
  price : ℚ
  quantity : ℚ
deriving DecidableEq, Repr

/-- A row of the `orders` table as read by `backfill_pnl.py`
(`SELECT id, symbol, side, quantity, price, timestamp, pnl ... ORDER BY timestamp ASC`).
The claims quantify over the history already in ascending order, so the
timestamp column is kept implicit in the list order.  `pnl` is `NULL`-able
(`order['pnl'] or 0.0` in the source). -/
structure Order where
  id : ℕ
  symbol : String
  side : String
  quantity : ℚ
  price : ℚ
  pnl : Option ℚ
deriving DecidableEq, Repr

/-- An entry of the `updates` list accumulated by `backfill_pnl`:
`{'id': ..., 'old_pnl': ..., 'new_pnl': ...}` (the `symbol` and `timestamp`
keys are used only for printing and are omitted). -/
structure Update where
  id : ℕ
  oldPnl : ℚ
  newPnl : ℚ
deriving DecidableEq, Repr

/-- The inner `while remaining_qty > 0 and positions[symbol]:` loop of
`backfill_pnl`: consume lots oldest-first.  Returns
(realized pnl, unmatched remaining quantity, leftover lots). -/
def sellFifo (price : ℚ) : ℚ → List Lot → ℚ × ℚ × List Lot
  | remaining, [] => (0, remaining, [])
  | remaining, lot :: rest =>
    if 0 < remaining then
      if lot.quantity ≤ remaining then
        let r := sellFifo price (remaining - lot.quantity) rest
        ((price - lot.price) * lot.quantity + r.1, r.2.1, r.2.2)
      else
        ((price - lot.price) * remaining, 0,
          { lot with quantity := lot.quantity - remaining } :: rest)
    else (0, remaining, lot :: rest)

/-- Python `str.upper()` as applied to the `side` column.  Written over the
character list so that it evaluates by kernel reduction
(`String.toUpper`'s `mapAux` recursion does not). -/
def pyUpper (s : String) : String := ⟨s.data.map Char.toUpper⟩

/-- Append a freshly bought lot to a symbol's queue
(`positions[symbol].append({...})`). -/
def pushLot (p : String → List Lot) (sym : String) (lot : Lot) : String → List Lot :=
  fun s => if s = sym then p sym ++ [lot] else p s

/-- Overwrite a symbol's lot queue after a sell consumed from it. -/
def setLots (p : String → List Lot) (sym : String) (lots : List Lot) : String → List Lot :=
  fun s => if s = sym then lots else p s

/-- State threaded through the order loop of `backfill_pnl`: the per-symbol
lot queues (`positions = defaultdict(list)`) and the accumulated `updates`. -/
structure BState where
  positions : String → List Lot
  updates : List Update

/-- The main `for order in orders:` loop of `backfill_pnl`, starting from lot
queues `p`.  A BUY pushes a lot; a SELL runs the FIFO loop and, when the
calculated pnl differs from the stored one by more than 0.001, records an
update; any other side is ignored. -/
def runBackfill (p : String → List Lot) : List Order → BState
  | [] => ⟨p, []⟩
  | o :: os =>
    if pyUpper o.side = "BUY" then
      runBackfill (pushLot p o.symbol ⟨o.price, o.quantity⟩) os
    else if pyUpper o.side = "SELL" then
      let r := sellFifo o.price o.quantity (p o.symbol)
      let st := runBackfill (setLots p o.symbol r.2.2) os
      if 1/1000 < |r.1 - o.pnl.getD 0| then
        ⟨st.positions, ⟨o.id, o.pnl.getD 0, r.1⟩ :: st.updates⟩
      else st
    else runBackfill p os

/-- The list of updates `backfill_pnl` proposes for an order history
(dry-run output; with `--apply` these are committed). -/
def backfillUpdates (os : List Order) : List Update :=
  (runBackfill (fun _ => []) os).updates

/-- The lot queues left for each symbol after replaying an order history. -/
def finalLots (os : List Order) : String → List Lot :=
  (runBackfill (fun _ => []) os).positions

/-- One committed update: `UPDATE orders SET pnl = ? WHERE id = ?`. -/
def applyUpdate (os : List Order) (u : Update) : List Order :=
  os.map fun o => if o.id = u.id then { o with pnl := some u.newPnl } else o

/-- The apply phase of `backfill_pnl` (`for u in updates: ... UPDATE ...`). -/
def applyUpdates (os : List Order) (us : List Update) : List Order :=
  us.foldl applyUpdate os

/-! Balance reconciler (`account_balance_updater.py`). -/

/-- A row of the `positions` table as read by `calculate_account_balance`
(`SELECT symbol, quantity, current_price FROM positions`). -/
structure PositionRow where
  symbol : String
  quantity : ℚ
  currentPrice : ℚ
deriving DecidableEq, Repr

/-- The database state touched by the reconciler: the singleton account row
(`cash`, `total_value`) and the positions table. -/
structure AccountState where
  cash : ℚ
  storedTotal : ℚ
  positions : List PositionRow
deriving DecidableEq, Repr

/-- The dict returned by `calculate_account_balance`. -/
structure BalanceInfo where
  cash : ℚ
  positionsValue : ℚ
  totalValue : ℚ
  numPositions : ℕ
deriving DecidableEq, Repr

/-- Embedding of `calculate_account_balance`: cash plus the mark-to-market
value of every position row. -/
def calculate_account_balance (st : AccountState) : BalanceInfo :=
  let pv := (st.positions.map fun p => p.quantity * p.currentPrice).sum
  ⟨st.cash, pv, st.cash + pv, st.positions.length⟩

/-- Embedding of `update_account_balance`: overwrite the stored
`account.total_value` with the computed total. -/
def update_account_balance (st : AccountState) : AccountState :=
  { st with storedTotal := (calculate_account_balance st).totalValue }

/-- The dict returned by `check_balance_discrepancy`.  The Python dict always
contains the `discrepancy_pct` key; when the stored total is not positive the
division is skipped and 0 is stored. -/
structure DiscrepancyInfo where
  calculatedTotal : ℚ
  storedTotal : ℚ
  discrepancy : ℚ
  discrepancyPct : ℚ
  hasIssue : Bool
deriving DecidableEq, Repr

/-- Embedding of `check_balance_discrepancy(db_path, threshold)`. -/
def check_balance_discrepancy (st : AccountState) (threshold : ℚ) : DiscrepancyInfo :=
  let bal := calculate_account_balance st
  let disc := bal.totalValue - st.storedTotal
  let pct := if 0 < st.storedTotal then disc / st.storedTotal * 100 else 0
  ⟨bal.totalValue, st.storedTotal, disc, pct, decide (threshold < |disc|)⟩

/-- The percentage-drift field as the caller of `check_balance_discrepancy`
actually receives it: the key is always present in the returned dict, so the
emitted value is `some` of the stored number. -/
def emittedDiscrepancyPct (st : AccountState) (threshold : ℚ) : Option ℚ :=
  some (check_balance_discrepancy st threshold).discrepancyPct

/-- Modelled from the spec: the claim's reading of the percentage drift,
"undefined/omitted when the stored value is ≤ 0" — present only for a
positive stored total. -/
def specDiscrepancyPct (st : AccountState) : Option ℚ :=
  if 0 < st.storedTotal then
    some (((calculate_account_balance st).totalValue - st.storedTotal) / st.storedTotal * 100)
  else none

/-! Strategy performance analyzer (`strategy_analytics.py`). -/

/-- The fields of a `strategy_performance` row that
`check_optimization_triggers` reads.  Counters are SQL integers, the rates
and pnl SQL reals. -/
structure StrategyPerformanceRow where
  totalTrades : ℤ
  consecutiveLosses : ℤ
  winRate : ℚ
  currentDrawdown : ℚ
  totalPnl : ℚ
deriving DecidableEq, Repr

/-- Embedding of `StrategyAnalytics.check_optimization_triggers` for an
existing performance row.  The numeric interpolations of the Python reason
strings (win rate, drawdown, pnl values) are elided; the first reason is the
constant string of the source. -/
def check_optimization_triggers (perf : StrategyPerformanceRow) : Bool × String :=
  if 5 ≤ perf.consecutiveLosses then (true, "5 consecutive losses")
  else if 20 ≤ perf.totalTrades ∧ perf.winRate < 2/5 then (true, "Win rate below 40%")
  else if 3/20 < perf.currentDrawdown then (true, "Drawdown above 15%")
  else if 20 ≤ perf.totalTrades ∧ perf.totalPnl < 0 then (true, "Negative P&L")
  else (false, "")

/-- A `strategy_trades` row as used by the metric helpers; only the `pnl`
column is read. -/
structure Trade where
  pnl : ℚ
deriving DecidableEq, Repr

/-- The cumulative-P&L series built at the top of `_calculate_drawdown`. -/
def cumulativePnl (trades : List Trade) : List ℚ :=
  (trades.foldl (fun acc t => (acc.1 + t.pnl, acc.2 ++ [acc.1 + t.pnl])) (0, [])).2

/-- One iteration of the drawdown loop: state is (max_drawdown, peak). -/
def ddStep (s : ℚ × ℚ) (pnl : ℚ) : ℚ × ℚ :=
  let peak := if s.2 < pnl then pnl else s.2
  let dd := if peak ≠ 0 then (peak - pnl) / |peak| else 0
  (max s.1 dd, peak)

/-- Embedding of `StrategyAnalytics._calculate_drawdown`; returns
(max_drawdown, current_drawdown). -/
def calculate_drawdown (trades : List Trade) : ℚ × ℚ :=
  match cumulativePnl trades with
  | [] => (0, 0)
  | c0 :: cs =>
    let maxDd := ((c0 :: cs).foldl ddStep (0, c0)).1
    let currentPeak := cs.foldl max c0
    let currentPnl := (c0 :: cs).getLast (by simp)
    let currentDd := if currentPeak ≠ 0 then (currentPeak - currentPnl) / |currentPeak| else 0
    (maxDd, currentDd)

/-! Stop-loss monitor (`stop_loss_monitor.py`). -/

/-- A `positions` row as read by the monitor (`symbol, quantity, entry_price,
stop_loss`); `stop_loss` is `NULL`-able. -/
structure MonPosition where
  symbol : String
  quantity : ℚ
  entryPrice : ℚ
  stopLoss : Option ℚ
deriving DecidableEq, Repr

/-- The JSON body posted to the order API by `execute_stop_loss_sell`:
`{'symbol': ..., 'side': 'sell', 'quantity': int(quantity), 'order_type': 'market'}`. -/
structure SellOrderReq where
  symbol : String
  side : String
  quantity : ℤ
  orderType : String
deriving DecidableEq, Repr

/-- Python `int()` applied to a float: truncation toward zero. -/
def pyInt (q : ℚ) : ℤ := if 0 ≤ q then ⌊q⌋ else ⌈q⌉

/-- Embedding of `get_positions_with_stop_loss`
(`WHERE stop_loss IS NOT NULL AND stop_loss > 0`). -/
def positionsWithStopLoss (rows : List MonPosition) : List MonPosition :=
  rows.filter fun r =>
    match r.stopLoss with
    | some s => decide (0 < s)
    | none => false

/-- The body of the per-position loop of `check_stop_losses`: a missing quote
skips the position; a price at or below the stop loss emits the full-quantity
market sell that `execute_stop_loss_sell` posts. -/
def stopLossOrder (quote : String → Option ℚ) (pos : MonPosition) : Option SellOrderReq :=
  match quote pos.symbol with
  | none => none
  | some cp =>
    if cp ≤ pos.stopLoss.getD 0 then
      some ⟨pos.symbol, "sell", pyInt pos.quantity, "market"⟩
    else none

/-- Embedding of `check_stop_losses`: the sell orders emitted in one tick of
the monitor over the positions table. -/
def check_stop_losses (quote : String → Option ℚ) (rows : List MonPosition) : List SellOrderReq :=
  (positionsWithStopLoss rows).filterMap (stopLossOrder quote)

/-- Modelled from the spec: the HTTP order intake behind `POST /api/order`
(the server at `localhost:5000`) is not among the repository sources; per
spec §4.1, `place_order` on a sell decrements the position quantity and
deletes the position when the quantity reaches zero. -/
def intakeSell (rows : List MonPosition) (req : SellOrderReq) : List MonPosition :=
  rows.foldr
    (fun r acc =>
      if r.symbol = req.symbol then
        let q := r.quantity - (req.quantity : ℚ)
        if q ≤ 0 then acc else { r with quantity := q } :: acc
      else r :: acc)
    []

/-! Order placement of the one-candle paper trader (`paper_trade_one_candle.py`). -/

/-- A row appended to `orders` by `OneCandlePaperTrader.place_order`; the
constant `status = 'filled'`, the trader's fixed ticker and the wall-clock
timestamp are omitted. -/
structure PtOrder where
  orderType : String
  quantity : ℚ
  price : ℚ
deriving DecidableEq, Repr

/-- The database state `place_order` touches for the trader's ticker: the
account cash, the ticker's position row (quantity, entry_price) when present,
and the order history. -/
structure TradeState where
  cash : ℚ
  position : Option (ℚ × ℚ)
  orders : List PtOrder
deriving DecidableEq, Repr

/-- Embedding of `OneCandlePaperTrader.place_order`: the order row is always
inserted; a BUY does a weighted-average position upsert and debits cash; any
other side is treated as a sell, which decrements the position (deleting it
at quantity ≤ 0) and credits cash, or touches nothing beyond the order row
when no position exists. -/
def place_order (st : TradeState) (side : String) (quantity price : ℚ) : TradeState :=
  let ot := if side = "BUY" then "buy" else "sell"
  let st1 := { st with orders := st.orders ++ [⟨ot, quantity, price⟩] }
  if side = "BUY" then
    match st.position with
    | some (q, ep) =>
      let nq := q + quantity
      let na := (q * ep + quantity * price) / nq
      { st1 with position := some (nq, na), cash := st.cash - quantity * price }
    | none =>
      { st1 with position := some (quantity, price), cash := st.cash - quantity * price }
  else
    match st.position with
    | some (q, _) =>
      let nq := q - quantity
      { st1 with
          position := if nq ≤ 0 then none else st.position.map fun p => (nq, p.2),
          cash := st.cash + quantity * price }
    | none => st1

/-! Persisted schema (`db_manager.py`, `_create_trading_tables`). -/

/-- A table of the persisted schema: its name and column names. -/
structure TableSchema where
  name : String
  columns : List String
deriving DecidableEq, Repr

/-- The `account` table created by `_create_trading_tables` (sqlite branch;
the postgresql branch declares the same column names). -/
def accountTable : TableSchema :=
  ⟨"account", ["id", "cash", "last_updated"]⟩

/-- The `positions` table created by `_create_trading_tables`. -/
def positionsTable : TableSchema :=
  ⟨"positions", ["symbol", "quantity", "entry_price", "entry_date", "last_updated"]⟩

/-- The `orders` table created by `_create_trading_tables`. -/
def ordersTable : TableSchema :=
  ⟨"orders", ["id", "symbol", "side", "quantity", "price", "timestamp", "pnl"]⟩

/-- The `performance` table created by `_create_trading_tables`. -/
def performanceTable : TableSchema :=
  ⟨"performance", ["timestamp", "total_value", "cash", "positions_value"]⟩

/-- All trading tables created by `init_schema` via `_create_trading_tables`. -/
def tradingTables : List TableSchema :=
  [accountTable, positionsTable, ordersTable, performanceTable]

/-! Proof-support views of the definitions above. -/

/-- The columns of an order row other than `pnl` — the fields the backfill is
claimed never to touch. -/
def tradeFields (o : Order) : ℕ × String × String × ℚ × ℚ :=
  (o.id, o.symbol, o.side, o.quantity, o.price)

/-- Row-level view of the committed-update loop: the pnl a single order row
ends up with after the sequence of `UPDATE orders SET pnl = ? WHERE id = ?`
statements (a later update to the same id wins). -/
def reassign (us : List Update) (o : Order) : Order :=
  us.foldl (fun a u => if a.id = u.id then { a with pnl := some u.newPnl } else a) o

end Falcon

namespace Falcon

/-- The uppercased side strings, evaluated once for use in simp sets. -/
theorem pyUpper_buy : pyUpper "buy" = "BUY" := by decide

/-- The uppercased sell side string. -/
theorem pyUpper_sell : pyUpper "sell" = "SELL" := by decide

/-- Side-string disequality used to resolve the branch tests. -/
theorem sell_eq_buy_false : (("SELL" : String) = "BUY") = False := by simp

/-- C1: a sell consumes open buy lots oldest-first — a lot no larger than the
remaining quantity is realized in full and removed, a larger lot is realized
for the remaining quantity and shrunk — and the two concrete histories of the
spec produce realized P&L 2500, and +600 then +400 with a 30-share lot at
$300 left over. -/
theorem fifo_sell_oldest_first :
    (∀ (P Q : ℚ) (lot : Lot) (rest : List Lot), 0 < Q → lot.quantity ≤ Q →
      sellFifo P Q (lot :: rest) =
        ((P - lot.price) * lot.quantity + (sellFifo P (Q - lot.quantity) rest).1,
         (sellFifo P (Q - lot.quantity) rest).2.1,
         (sellFifo P (Q - lot.quantity) rest).2.2)) ∧
    (∀ (P Q : ℚ) (lot : Lot) (rest : List Lot), 0 < Q → Q < lot.quantity →
      sellFifo P Q (lot :: rest) =
        ((P - lot.price) * Q, 0, ⟨lot.price, lot.quantity - Q⟩ :: rest)) ∧
    backfillUpdates
      [⟨1, "TSLA", "buy", 50, 400, none⟩, ⟨2, "TSLA", "buy", 50, 410, none⟩,
       ⟨3, "TSLA", "sell", 100, 430, none⟩] = [⟨3, 0, 2500⟩] ∧
    backfillUpdates
      [⟨1, "TSLA", "buy", 100, 300, none⟩, ⟨2, "TSLA", "sell", 30, 320, none⟩,
       ⟨3, "TSLA", "sell", 40, 310, none⟩] = [⟨2, 0, 600⟩, ⟨3, 0, 400⟩] ∧
    finalLots
      [⟨1, "TSLA", "buy", 100, 300, none⟩, ⟨2, "TSLA", "sell", 30, 320, none⟩,
       ⟨3, "TSLA", "sell", 40, 310, none⟩] "TSLA" = [⟨300, 30⟩] := by
  refine ⟨fun P Q lot rest h0 h => ?_, fun P Q lot rest h0 h => ?_, ?_, ?_, ?_⟩
  · rw [sellFifo, if_pos h0, if_pos h]
  · rw [sellFifo, if_pos h0, if_neg (not_le.mpr h)]
  all_goals
    norm_num [backfillUpdates, finalLots, runBackfill, sellFifo, pushLot, setLots,
      pyUpper_buy, pyUpper_sell, sell_eq_buy_false]

/-- Witness for C1: the lot-consumption equations instantiated on the first
lot of the 2500-P&L example (full consumption of 50@$400 against a 100-share
sell at $430) and on a partial fill (30 shares out of a 100@$300 lot at
$320). -/
theorem fifo_sell_oldest_first_witness :
    sellFifo 430 100 [⟨400, 50⟩, ⟨410, 50⟩] =
      ((430 - 400) * 50 + (sellFifo 430 (100 - 50) [⟨410, 50⟩]).1,
       (sellFifo 430 (100 - 50) [⟨410, 50⟩]).2.1,
       (sellFifo 430 (100 - 50) [⟨410, 50⟩]).2.2) ∧
    sellFifo 320 30 [⟨300, 100⟩] = ((320 - 300) * 30, 0, [⟨300, 100 - 30⟩]) :=
  ⟨fifo_sell_oldest_first.1 430 100 ⟨400, 50⟩ [⟨410, 50⟩] (by norm_num) (by norm_num),
   fifo_sell_oldest_first.2.1 320 30 ⟨300, 100⟩ [] (by norm_num) (by norm_num)⟩

/-- C2: reconciling (`update_account_balance`) and then checking
(`check_balance_discrepancy`) an unchanged account state reports zero
discrepancy; with stored $10,000, cash $5,000 and positions worth $34,850 the
first check reports a $29,850 discrepancy, reconciliation stores $39,850, and
the follow-up check reports none. -/
theorem reconcile_then_check_no_discrepancy :
    (∀ st : AccountState,
      (check_balance_discrepancy (update_account_balance st) 1).discrepancy = 0 ∧
      (check_balance_discrepancy (update_account_balance st) 1).hasIssue = false) ∧
    (check_balance_discrepancy ⟨5000, 10000, [⟨"NVDA", 100, 697/2⟩]⟩ 1).discrepancy = 29850 ∧
    (check_balance_discrepancy ⟨5000, 10000, [⟨"NVDA", 100, 697/2⟩]⟩ 1).hasIssue = true ∧
    (update_account_balance ⟨5000, 10000, [⟨"NVDA", 100, 697/2⟩]⟩).storedTotal = 39850 ∧
    (check_balance_discrepancy
        (update_account_balance ⟨5000, 10000, [⟨"NVDA", 100, 697/2⟩]⟩) 1).hasIssue = false := by
  refine ⟨fun st => ?_, ?_, ?_, ?_, ?_⟩ <;>
    norm_num [check_balance_discrepancy, update_account_balance, calculate_account_balance]

/-- C7: `check_optimization_triggers` flags a strategy exactly when one of the
four trigger conditions holds, and five or more consecutive losses always
yield the reason "5 consecutive losses", regardless of total P&L. -/
theorem optimization_trigger_characterization :
    ∀ perf : StrategyPerformanceRow,
      ((check_optimization_triggers perf).1 = true ↔
        (5 ≤ perf.consecutiveLosses ∨
         (20 ≤ perf.totalTrades ∧ perf.winRate < 2/5) ∨
         3/20 < perf.currentDrawdown ∨
         (20 ≤ perf.totalTrades ∧ perf.totalPnl < 0))) ∧
      (5 ≤ perf.consecutiveLosses →
        check_optimization_triggers perf = (true, "5 consecutive losses")) := by
  intro perf
  constructor
  · unfold check_optimization_triggers
    split_ifs with h1 h2 h3 h4 <;> simp_all [not_lt, not_le]
  · intro h
    unfold check_optimization_triggers
    rw [if_pos h]

/-- Witness for C7: a record with 6 consecutive losses and negative total P&L
is flagged with the consecutive-losses reason. -/
theorem optimization_trigger_characterization_witness :
    check_optimization_triggers ⟨10, 6, 1/2, 0, -100⟩ = (true, "5 consecutive losses") :=
  (optimization_trigger_characterization ⟨10, 6, 1/2, 0, -100⟩).2 (by norm_num)

/-- C9: the `account` table created by `init_schema` via
`_create_trading_tables` has no `total_value` column (only id, cash,
last_updated), although the `performance` table does — so the reconciler's
reads and writes of `account.total_value` fail against a freshly initialized
store. -/
theorem account_schema_lacks_total_value :
    accountTable.columns = ["id", "cash", "last_updated"] ∧
    "total_value" ∉ accountTable.columns ∧
    "total_value" ∈ performanceTable.columns := by
  refine ⟨rfl, by decide, by decide⟩

/-- C4: `place_order` performs no constraint validation.  From cash $1000 and
a 10-share position at $100: a sell of 20 shares at $5 is committed — the
order row is appended, the position row is deleted and cash is credited the
full $100 — and a buy at price −$5 is likewise committed; no write is
rejected. -/
theorem place_order_commits_unvalidated_writes :
    place_order ⟨1000, some (10, 100), []⟩ "SELL" 20 5 =
      ⟨1100, none, [⟨"sell", 20, 5⟩]⟩ ∧
    place_order ⟨1000, some (10, 100), []⟩ "BUY" 2 (-5) =
      ⟨1010, some (12, 165/2), [⟨"buy", 2, -5⟩]⟩ ∧
    place_order ⟨1000, some (10, 100), []⟩ "SELL" 20 5 ≠ ⟨1000, some (10, 100), []⟩ := by
  refine ⟨?_, ?_, ?_⟩ <;> simp [place_order] <;> norm_num

/-- Counterexample for C8: with a stored total of 0 (and a $50 computed
total), the returned dict still carries the `discrepancy_pct` key, holding 0 —
the percentage is reported, not undefined/omitted as the claim states. -/
theorem discrepancy_pct_present_cex :
    emittedDiscrepancyPct ⟨50, 0, []⟩ 1 = some 0 ∧
    specDiscrepancyPct ⟨50, 0, []⟩ = none ∧
    emittedDiscrepancyPct ⟨50, 0, []⟩ 1 ≠ specDiscrepancyPct ⟨50, 0, []⟩ := by
  refine ⟨?_, ?_, ?_⟩ <;>
    simp [emittedDiscrepancyPct, specDiscrepancyPct, check_balance_discrepancy,
      calculate_account_balance]

/-- C8 (amended): the check flags an issue exactly when the absolute
difference between stored and computed totals exceeds the threshold, and when
the stored value is ≤ 0 the percentage drift is reported as 0 (the division is
skipped but the field remains present). -/
theorem discrepancy_flag_threshold :
    ∀ (st : AccountState) (threshold : ℚ),
      ((check_balance_discrepancy st threshold).hasIssue = true ↔
        threshold < |(calculate_account_balance st).totalValue - st.storedTotal|) ∧
      (st.storedTotal ≤ 0 →
        (check_balance_discrepancy st threshold).discrepancyPct = 0) := by
  intro st threshold
  constructor
  · simp [check_balance_discrepancy]
  · intro h
    simp [check_balance_discrepancy, not_lt.mpr h]

/-- Witness for C8: at stored total 0 the percentage field is 0, and the $50
drift is flagged against the default $1 threshold. -/
theorem discrepancy_flag_threshold_witness :
    ((check_balance_discrepancy ⟨50, 0, []⟩ 1).hasIssue = true ↔
      (1 : ℚ) < |(calculate_account_balance ⟨50, 0, []⟩).totalValue - (0 : ℚ)|) ∧
    (check_balance_discrepancy ⟨50, 0, []⟩ 1).discrepancyPct = 0 :=
  ⟨(discrepancy_flag_threshold ⟨50, 0, []⟩ 1).1,
   (discrepancy_flag_threshold ⟨50, 0, []⟩ 1).2 (by norm_num)⟩

/-- Counterexample for C3: a monitored position of 10.5 shares with stop-loss
$95 and a $94 quote triggers, but the posted sell is for `int(10.5) = 10`
shares — not the full quantity — and after the intake processes it, a
half-share position remains rather than being removed. -/
theorem stop_loss_fractional_quantity_cex :
    check_stop_losses (fun _ => some 94) [⟨"TSLA", 21/2, 100, some 95⟩] =
      [⟨"TSLA", "sell", 10, "market"⟩] ∧
    ((10 : ℤ) : ℚ) ≠ 21/2 ∧
    intakeSell [⟨"TSLA", 21/2, 100, some 95⟩] ⟨"TSLA", "sell", 10, "market"⟩ =
      [⟨"TSLA", 1/2, 100, some 95⟩] := by
  refine ⟨?_, ?_, ?_⟩ <;>
    norm_num [check_stop_losses, positionsWithStopLoss, stopLossOrder, pyInt, intakeSell,
      List.filterMap_cons]

/-- C3 (amended): for a monitored position with a positive stop loss, a
fetched quote at or below it makes the monitor place exactly one market sell
order for `int(quantity)` shares; when the held quantity is a whole number
that is the full quantity and the (spec-modelled) order intake removes the
position. -/
theorem stop_loss_triggers_single_sell :
    ∀ (quote : String → Option ℚ) (pos : MonPosition) (s cp : ℚ),
      pos.stopLoss = some s → 0 < s → quote pos.symbol = some cp → cp ≤ s →
      check_stop_losses quote [pos] = [⟨pos.symbol, "sell", pyInt pos.quantity, "market"⟩] ∧
      ((pyInt pos.quantity : ℚ) = pos.quantity →
        intakeSell [pos] ⟨pos.symbol, "sell", pyInt pos.quantity, "market"⟩ = []) := by
  intro quote pos s cp hsl hs hq hcp
  constructor
  · simp [check_stop_losses, positionsWithStopLoss, stopLossOrder, hsl, hs, hq, hcp,
      List.filterMap_cons]
  · intro hqq
    simp [intakeSell, hqq]

/-- Witness for C3: a 10-share position with stop-loss $95 and a $94 quote —
one full-quantity market sell, and the position is removed. -/
theorem stop_loss_triggers_single_sell_witness :
    check_stop_losses (fun _ => some 94) [⟨"TSLA", 10, 100, some 95⟩] =
      [⟨"TSLA", "sell", pyInt 10, "market"⟩] ∧
    intakeSell [⟨"TSLA", 10, 100, some 95⟩] ⟨"TSLA", "sell", pyInt 10, "market"⟩ = [] :=
  let h := stop_loss_triggers_single_sell (fun _ => some 94) ⟨"TSLA", 10, 100, some 95⟩ 95 94
    rfl (by norm_num) rfl (by norm_num)
  ⟨h.1, h.2 (by norm_num [pyInt])⟩

/-- Rewriting the peak update of the drawdown loop as a lattice max. -/
theorem ite_lt_eq_max (a b : ℚ) : (if a < b then b else a) = max a b := by
  rcases lt_or_le a b with h | h
  · rw [if_pos h, max_eq_right h.le]
  · rw [if_neg (not_lt.mpr h), max_eq_left h]

/-- One drawdown-loop iteration in closed form. -/
theorem ddStep_eq (s : ℚ × ℚ) (x : ℚ) :
    ddStep s x =
      (max s.1 (if max s.2 x ≠ 0 then (max s.2 x - x) / |max s.2 x| else 0), max s.2 x) := by
  simp only [ddStep, ite_lt_eq_max]

/-- The peak component of one drawdown-loop iteration. -/
theorem ddStep_snd (s : ℚ × ℚ) (x : ℚ) : (ddStep s x).2 = max s.2 x := by
  rw [ddStep_eq]

/-- A running maximum never drops below its seed. -/
theorem le_foldl_max (l : List ℚ) : ∀ a : ℚ, a ≤ l.foldl max a := by
  induction l with
  | nil => intro a; simp
  | cons x l ih => intro a; exact le_trans (le_max_left a x) (ih (max a x))

/-- A running maximum dominates every list element. -/
theorem mem_le_foldl_max (l : List ℚ) : ∀ (a x : ℚ), x ∈ l → x ≤ l.foldl max a := by
  induction l with
  | nil => intro a x hx; simp at hx
  | cons y l ih =>
    intro a x hx
    rcases List.mem_cons.mp hx with h | h
    · subst h; exact le_trans (le_max_right a x) (le_foldl_max l (max a x))
    · exact ih (max a y) x h

/-- The running max-drawdown never drops below its seed. -/
theorem fst_le_foldl_ddStep (l : List ℚ) : ∀ s : ℚ × ℚ, s.1 ≤ (l.foldl ddStep s).1 := by
  induction l with
  | nil => intro s; simp
  | cons x l ih =>
    intro s
    refine le_trans ?_ (ih (ddStep s x))
    rw [ddStep_eq]
    exact le_max_left _ _

/-- The peak threaded through the drawdown loop is the running maximum. -/
theorem snd_foldl_ddStep (l : List ℚ) : ∀ s : ℚ × ℚ, (l.foldl ddStep s).2 = l.foldl max s.2 := by
  induction l with
  | nil => intro s; rfl
  | cons x l ih =>
    intro s
    rw [List.foldl_cons, List.foldl_cons, ih (ddStep s x), ddStep_snd]

/-- The drawdown the loop computes at the final element — the overall peak
against the last cumulative value — is dominated by the loop's maximum. -/
theorem last_dd_le_foldl_ddStep (l : List ℚ) :
    ∀ (x : ℚ) (s : ℚ × ℚ),
      (if (x :: l).foldl max s.2 ≠ 0 then
        ((x :: l).foldl max s.2 - (x :: l).getLast (by simp)) / |(x :: l).foldl max s.2|
       else 0) ≤ ((x :: l).foldl ddStep s).1 := by
  induction l with
  | nil =>
    intro x s
    simp only [List.foldl_cons, List.foldl_nil, List.getLast_singleton, ddStep_eq]
    exact le_max_right _ _
  | cons y l ih =>
    intro x s
    have h := ih y (ddStep s x)
    rw [ddStep_snd] at h
    simpa [List.getLast_cons] using h

/-- The cumulative-P&L series has one entry per trade. -/
theorem cumulativePnl_length (trades : List Trade) :
    (cumulativePnl trades).length = trades.length := by
  suffices h : ∀ (l : List Trade) (c : ℚ) (acc : List ℚ),
      (l.foldl (fun acc t => (acc.1 + t.pnl, acc.2 ++ [acc.1 + t.pnl])) (c, acc)).2.length =
        acc.length + l.length by
    simpa [cumulativePnl] using h trades 0 []
  intro l
  induction l with
  | nil => intro c acc; simp
  | cons t l ih => intro c acc; simp [ih, Nat.add_assoc, Nat.add_comm 1]

/-- C10: `_calculate_drawdown` returns (0, 0) on an empty trade list, and on a
non-empty list both drawdowns are non-negative with
current_drawdown ≤ max_drawdown. -/
theorem drawdown_bounds :
    calculate_drawdown [] = (0, 0) ∧
    ∀ trades : List Trade, trades ≠ [] →
      0 ≤ (calculate_drawdown trades).1 ∧
      0 ≤ (calculate_drawdown trades).2 ∧
      (calculate_drawdown trades).2 ≤ (calculate_drawdown trades).1 := by
  constructor
  · rfl
  intro trades ht
  obtain ⟨c0, cs, hc⟩ : ∃ c0 cs, cumulativePnl trades = c0 :: cs := by
    rcases h : cumulativePnl trades with _ | ⟨c0, cs⟩
    · exfalso
      have hl := cumulativePnl_length trades
      rw [h] at hl
      exact ht (List.length_eq_zero.mp hl.symm)
    · exact ⟨c0, cs, rfl⟩
  have hmax : 0 ≤ (((c0 :: cs).foldl ddStep (0, c0))).1 := fst_le_foldl_ddStep _ _
  have hpeak_last : (c0 :: cs).getLast (by simp) ≤ List.foldl max c0 cs := by
    have := mem_le_foldl_max (c0 :: cs) c0 _ (List.getLast_mem (l := c0 :: cs) (by simp))
    simpa using this
  have hlast : (if List.foldl max c0 cs ≠ 0 then
      (List.foldl max c0 cs - (c0 :: cs).getLast (by simp)) / |List.foldl max c0 cs| else 0) ≤
      ((c0 :: cs).foldl ddStep (0, c0)).1 := by
    have h := last_dd_le_foldl_ddStep cs c0 (0, c0)
    simpa using h
  simp only [calculate_drawdown, hc]
  refine ⟨hmax, ?_, hlast⟩
  split_ifs with h
  · exact div_nonneg (sub_nonneg.mpr hpeak_last) (abs_nonneg _)
  · exact le_refl 0

/-- Witness for C10: the trade list +10, −5 has non-negative drawdowns with
the current one bounded by the maximum. -/
theorem drawdown_bounds_witness :
    0 ≤ (calculate_drawdown [⟨10⟩, ⟨-5⟩]).1 ∧
    0 ≤ (calculate_drawdown [⟨10⟩, ⟨-5⟩]).2 ∧
    (calculate_drawdown [⟨10⟩, ⟨-5⟩]).2 ≤ (calculate_drawdown [⟨10⟩, ⟨-5⟩]).1 :=
  drawdown_bounds.2 [⟨10⟩, ⟨-5⟩] (by simp)

/-- No committed updates leave a row unchanged. -/
theorem reassign_nil (o : Order) : reassign [] o = o := rfl

/-- Unfolding one committed update over a row. -/
theorem reassign_cons (u : Update) (us : List Update) (o : Order) :
    reassign (u :: us) o =
      reassign us (if o.id = u.id then { o with pnl := some u.newPnl } else o) := rfl

/-- Committed updates touch only the pnl column of a row. -/
theorem reassign_fields (us : List Update) : ∀ o : Order,
    (reassign us o).id = o.id ∧ (reassign us o).symbol = o.symbol ∧
    (reassign us o).side = o.side ∧ (reassign us o).quantity = o.quantity ∧
    (reassign us o).price = o.price := by
  induction us with
  | nil => intro o; exact ⟨rfl, rfl, rfl, rfl, rfl⟩
  | cons u us ih =>
    intro o
    rw [reassign_cons]
    split_ifs with h
    · exact ih { o with pnl := some u.newPnl }
    · exact ih o

/-- A row whose id no update targets is left unchanged. -/
theorem reassign_not_mem (us : List Update) : ∀ o : Order,
    (∀ u ∈ us, u.id ≠ o.id) → reassign us o = o := by
  induction us with
  | nil => intro o _; rfl
  | cons u us ih =>
    intro o h
    rw [reassign_cons, if_neg (fun he => h u (List.mem_cons_self u us) he.symm)]
    exact ih o fun v hv => h v (List.mem_cons_of_mem u hv)

/-- The update loop acts row-wise on the orders table. -/
theorem applyUpdates_eq_map (us : List Update) : ∀ os : List Order,
    applyUpdates os us = os.map (reassign us) := by
  induction us with
  | nil =>
    intro os
    have h : os.map (reassign []) = os := by
      rw [show List.map (reassign []) os = List.map id os from
        List.map_congr_left fun o _ => rfl, List.map_id]
    rw [h]
    rfl
  | cons u us ih =>
    intro os
    show applyUpdates (applyUpdate os u) us = _
    rw [ih (applyUpdate os u), applyUpdate, List.map_map]
    exact List.map_congr_left fun o _ => rfl

/-- Unfolding one iteration of the backfill order loop. -/
theorem runBackfill_cons (p : String → List Lot) (o : Order) (os : List Order) :
    runBackfill p (o :: os) =
      if pyUpper o.side = "BUY" then
        runBackfill (pushLot p o.symbol ⟨o.price, o.quantity⟩) os
      else if pyUpper o.side = "SELL" then
        (if 1/1000 < |(sellFifo o.price o.quantity (p o.symbol)).1 - o.pnl.getD 0| then
          ⟨(runBackfill (setLots p o.symbol (sellFifo o.price o.quantity (p o.symbol)).2.2)
              os).positions,
           ⟨o.id, o.pnl.getD 0, (sellFifo o.price o.quantity (p o.symbol)).1⟩ ::
             (runBackfill (setLots p o.symbol (sellFifo o.price o.quantity (p o.symbol)).2.2)
               os).updates⟩
        else runBackfill (setLots p o.symbol (sellFifo o.price o.quantity (p o.symbol)).2.2) os)
      else runBackfill p os := rfl

/-- The backfill loop on a buy order. -/
theorem runBackfill_cons_buy (p : String → List Lot) (o : Order) (os : List Order)
    (h : pyUpper o.side = "BUY") :
    runBackfill p (o :: os) = runBackfill (pushLot p o.symbol ⟨o.price, o.quantity⟩) os := by
  rw [runBackfill_cons, if_pos h]

/-- The backfill loop on a sell order. -/
theorem runBackfill_cons_sell (p : String → List Lot) (o : Order) (os : List Order)
    (h : pyUpper o.side = "SELL") :
    runBackfill p (o :: os) =
      if 1/1000 < |(sellFifo o.price o.quantity (p o.symbol)).1 - o.pnl.getD 0| then
        ⟨(runBackfill (setLots p o.symbol (sellFifo o.price o.quantity (p o.symbol)).2.2)
            os).positions,
         ⟨o.id, o.pnl.getD 0, (sellFifo o.price o.quantity (p o.symbol)).1⟩ ::
           (runBackfill (setLots p o.symbol (sellFifo o.price o.quantity (p o.symbol)).2.2)
             os).updates⟩
      else runBackfill (setLots p o.symbol (sellFifo o.price o.quantity (p o.symbol)).2.2) os := by
  rw [runBackfill_cons, if_neg (by simp [h]), if_pos h]

/-- The backfill loop ignores orders that are neither buys nor sells. -/
theorem runBackfill_cons_other (p : String → List Lot) (o : Order) (os : List Order)
    (hb : ¬ pyUpper o.side = "BUY") (hs : ¬ pyUpper o.side = "SELL") :
    runBackfill p (o :: os) = runBackfill p os := by
  rw [runBackfill_cons, if_neg hb, if_neg hs]

/-- Every update the backfill proposes targets a sell order of the history,
records that order's stored pnl as the old value, and changes it by more
than 0.001. -/
theorem runBackfill_updates_spec : ∀ (os : List Order) (p : String → List Lot),
    ∀ u ∈ (runBackfill p os).updates,
      1/1000 < |u.newPnl - u.oldPnl| ∧
      ∃ o ∈ os, o.id = u.id ∧ pyUpper o.side = "SELL" ∧ o.pnl.getD 0 = u.oldPnl := by
  intro os
  induction os with
  | nil => intro p u hu; simp [runBackfill] at hu
  | cons o os ih =>
    intro p u hu
    by_cases hb : pyUpper o.side = "BUY"
    · rw [runBackfill_cons_buy p o os hb] at hu
      obtain ⟨h1, o2, h2, h3⟩ := ih _ u hu
      exact ⟨h1, o2, List.mem_cons_of_mem o h2, h3⟩
    by_cases hs : pyUpper o.side = "SELL"
    · rw [runBackfill_cons_sell p o os hs] at hu
      split_ifs at hu with hc
      · rcases List.mem_cons.mp hu with he | hu
        · subst he
          exact ⟨hc, o, List.mem_cons_self o os, rfl, hs, rfl⟩
        · obtain ⟨h1, o2, h2, h3⟩ := ih _ u hu
          exact ⟨h1, o2, List.mem_cons_of_mem o h2, h3⟩
      · obtain ⟨h1, o2, h2, h3⟩ := ih _ u hu
        exact ⟨h1, o2, List.mem_cons_of_mem o h2, h3⟩
    · rw [runBackfill_cons_other p o os hb hs] at hu
      obtain ⟨h1, o2, h2, h3⟩ := ih _ u hu
      exact ⟨h1, o2, List.mem_cons_of_mem o h2, h3⟩
/-- Replaying a history whose rows already carry the committed FIFO values
proposes nothing further. -/
theorem runBackfill_apply_self : ∀ (os : List Order) (p : String → List Lot),
    (os.map Order.id).Nodup →
    (runBackfill p (os.map (reassign (runBackfill p os).updates))).updates = [] := by
  intro os
  induction os with
  | nil => intro p _; rfl
  | cons o os ih =>
    intro p h
    rw [List.map_cons, List.nodup_cons] at h
    obtain ⟨h1, h2⟩ := h
    by_cases hb : pyUpper o.side = "BUY"
    · rw [runBackfill_cons_buy p o os hb, List.map_cons]
      obtain ⟨hid, hsym, hside, hqty, hprice⟩ :=
        reassign_fields (runBackfill (pushLot p o.symbol ⟨o.price, o.quantity⟩) os).updates o
      rw [runBackfill_cons_buy _ _ _ (by rw [hside]; exact hb), hsym, hprice, hqty]
      exact ih _ h2
    by_cases hs : pyUpper o.side = "SELL"
    · rw [runBackfill_cons_sell p o os hs]
      have hne : ∀ u ∈ (runBackfill
          (setLots p o.symbol (sellFifo o.price o.quantity (p o.symbol)).2.2) os).updates,
          u.id ≠ o.id := by
        intro u hu he
        obtain ⟨_, o2, ho2, hid2, _, _⟩ := runBackfill_updates_spec os _ u hu
        exact h1 (List.mem_map.mpr ⟨o2, ho2, by rw [hid2, he]⟩)
      split_ifs with hc
      · rw [List.map_cons]
        have hro : reassign
            (⟨o.id, o.pnl.getD 0, (sellFifo o.price o.quantity (p o.symbol)).1⟩ ::
              (runBackfill (setLots p o.symbol
                (sellFifo o.price o.quantity (p o.symbol)).2.2) os).updates) o =
            { o with pnl := some (sellFifo o.price o.quantity (p o.symbol)).1 } := by
          rw [reassign_cons, if_pos rfl]
          exact reassign_not_mem _ _ (fun u hu => hne u hu)
        dsimp only
        rw [hro]
        rw [runBackfill_cons_sell p
          { o with pnl := some (sellFifo o.price o.quantity (p o.symbol)).1 }
          (os.map (reassign
            (⟨o.id, o.pnl.getD 0, (sellFifo o.price o.quantity (p o.symbol)).1⟩ ::
              (runBackfill (setLots p o.symbol
                (sellFifo o.price o.quantity (p o.symbol)).2.2) os).updates)))
          hs]
        have hmap : os.map (reassign
            (⟨o.id, o.pnl.getD 0, (sellFifo o.price o.quantity (p o.symbol)).1⟩ ::
              (runBackfill (setLots p o.symbol
                (sellFifo o.price o.quantity (p o.symbol)).2.2) os).updates)) =
            os.map (reassign (runBackfill (setLots p o.symbol
                (sellFifo o.price o.quantity (p o.symbol)).2.2) os).updates) :=
          List.map_congr_left fun o2 ho2 => by
            rw [reassign_cons, if_neg]
            intro he
            exact h1 (List.mem_map.mpr ⟨o2, ho2, he⟩)
        split_ifs with hc2
        · exfalso
          simp only [Option.getD] at hc2
          rw [sub_self, abs_zero] at hc2
          exact absurd hc2 (by norm_num)
        · rw [hmap]
          exact ih _ h2
      · rw [List.map_cons]
        rw [reassign_not_mem _ _ (fun u hu => hne u hu)]
        rw [runBackfill_cons_sell _ _ _ hs, if_neg hc]
        exact ih _ h2
    · rw [runBackfill_cons_other p o os hb hs, List.map_cons]
      obtain ⟨hid, hsym, hside, hqty, hprice⟩ :=
        reassign_fields (runBackfill p os).updates o
      rw [runBackfill_cons_other _ _ _ (by rw [hside]; exact hb) (by rw [hside]; exact hs)]
      exact ih _ h2
/-- C6: the FIFO backfill is idempotent — once its proposed updates are
committed, a second run over the unchanged history (distinct order ids, as
the primary key guarantees) proposes no further updates, so per-order
realized_pnl is identical from then on. -/
theorem backfill_idempotent :
    ∀ os : List Order, (os.map Order.id).Nodup →
      backfillUpdates (applyUpdates os (backfillUpdates os)) = [] ∧
      applyUpdates (applyUpdates os (backfillUpdates os))
          (backfillUpdates (applyUpdates os (backfillUpdates os))) =
        applyUpdates os (backfillUpdates os) := by
  intro os h
  have h0 : backfillUpdates (applyUpdates os (backfillUpdates os)) = [] := by
    simp only [backfillUpdates, applyUpdates_eq_map]
    exact runBackfill_apply_self os (fun _ => []) h
  refine ⟨h0, ?_⟩
  rw [h0]
  rfl

/-- Witness for C6: committing the single proposed update of a two-order
history leaves nothing for a second run to propose. -/
theorem backfill_idempotent_witness :
    backfillUpdates (applyUpdates
      [⟨1, "AAPL", "buy", 10, 100, none⟩, ⟨2, "AAPL", "sell", 10, 110, some 50⟩]
      (backfillUpdates
        [⟨1, "AAPL", "buy", 10, 100, none⟩, ⟨2, "AAPL", "sell", 10, 110, some 50⟩])) = [] :=
  (backfill_idempotent
    [⟨1, "AAPL", "buy", 10, 100, none⟩, ⟨2, "AAPL", "sell", 10, 110, some 50⟩]
    (by simp)).1

/-- Counterexample for C5: a sell order whose stored realized_pnl is a
nonzero 50 while FIFO computes 100 is updated — the backfill overwrites
nonzero previously-recorded values, not only previously-zero ones. -/
theorem backfill_overwrites_nonzero_pnl_cex :
    backfillUpdates
      [⟨1, "AAPL", "buy", 10, 100, none⟩, ⟨2, "AAPL", "sell", 10, 110, some 50⟩] =
      [⟨2, 50, 100⟩] ∧
    (applyUpdates [⟨1, "AAPL", "buy", 10, 100, none⟩, ⟨2, "AAPL", "sell", 10, 110, some 50⟩]
        (backfillUpdates
          [⟨1, "AAPL", "buy", 10, 100, none⟩, ⟨2, "AAPL", "sell", 10, 110, some 50⟩])).map
      Order.pnl = [none, some 100] ∧
    (50 : ℚ) ≠ 0 ∧ (100 : ℚ) ≠ 50 := by
  refine ⟨?_, ?_, by norm_num, by norm_num⟩ <;>
    norm_num [backfillUpdates, runBackfill, sellFifo, pushLot, setLots, applyUpdates,
      applyUpdate, List.foldl_cons, List.foldl_nil, pyUpper_buy, pyUpper_sell,
      sell_eq_buy_false]

/-- C5 (amended): the backfill mutates only the realized_pnl field — every
other field of every order is unchanged — and every update it proposes
targets a sell order whose stored realized_pnl (zero or not) differs from the
FIFO value by more than 0.001. -/
theorem backfill_mutates_only_pnl :
    ∀ os : List Order,
      (applyUpdates os (backfillUpdates os)).map tradeFields = os.map tradeFields ∧
      ∀ u ∈ backfillUpdates os,
        1/1000 < |u.newPnl - u.oldPnl| ∧
        ∃ o ∈ os, o.id = u.id ∧ pyUpper o.side = "SELL" ∧ o.pnl.getD 0 = u.oldPnl := by
  intro os
  constructor
  · rw [applyUpdates_eq_map, List.map_map]
    refine List.map_congr_left fun o _ => ?_
    obtain ⟨h1, h2, h3, h4, h5⟩ := reassign_fields (backfillUpdates os) o
    simp [tradeFields, Function.comp, h1, h2, h3, h4, h5]
  · exact runBackfill_updates_spec os (fun _ => [])

/-- Witness for C5: on the two-order history the frame holds and the single
proposed update satisfies the characterization. -/
theorem backfill_mutates_only_pnl_witness :
    (applyUpdates [⟨1, "AAPL", "buy", 10, 100, none⟩, ⟨2, "AAPL", "sell", 10, 110, some 50⟩]
        (backfillUpdates
          [⟨1, "AAPL", "buy", 10, 100, none⟩, ⟨2, "AAPL", "sell", 10, 110, some 50⟩])).map
      tradeFields =
      [⟨1, "AAPL", "buy", 10, 100, none⟩,
        (⟨2, "AAPL", "sell", 10, 110, some 50⟩ : Order)].map tradeFields ∧
    (1/1000 < |(100 : ℚ) - 50| ∧
      ∃ o ∈ [⟨1, "AAPL", "buy", 10, 100, none⟩,
        (⟨2, "AAPL", "sell", 10, 110, some 50⟩ : Order)],
        o.id = 2 ∧ pyUpper o.side = "SELL" ∧ o.pnl.getD 0 = 50) :=
  ⟨(backfill_mutates_only_pnl
      [⟨1, "AAPL", "buy", 10, 100, none⟩, ⟨2, "AAPL", "sell", 10, 110, some 50⟩]).1,
   (backfill_mutates_only_pnl
      [⟨1, "AAPL", "buy", 10, 100, none⟩, ⟨2, "AAPL", "sell", 10, 110, some 50⟩]).2
     ⟨2, 50, 100⟩
     (by norm_num [backfillUpdates, runBackfill, sellFifo, pushLot, setLots,
        List.foldl_cons, List.foldl_nil, pyUpper_buy, pyUpper_sell, sell_eq_buy_false])⟩

end Falcon
